import Mathlib

/-!
# Shallow embedding of `SealedBidAuction.sol`

This file embeds the `SealedBidAuction` contract
(`fhevm-hardhat-template/contracts/SealedBidAuction.sol`) as a Lean state
machine and proves the specification claims about it.

Modelling conventions:
* Addresses are `Nat` (0 stands for `address(0)`); `uint64` / `uint256`
  arithmetic is `Nat` arithmetic with explicit bounds: Solidity 0.8 checked
  addition/subtraction reverts on overflow/underflow (modelled as an error),
  while FHE homomorphic addition on `euint64` wraps modulo `2^64`.
* Encrypted values (`euint64`, `eaddress`) are modelled by their plaintexts:
  the contract never branches on them except through the homomorphic
  operations `FHE.gt` / `FHE.select`, which act on the plaintexts.
* Every external function returns `Except Err (AuctionState × List Event)`;
  an error models a revert (no state change, no events).
* `FHE.checkSignatures` models a genuine oracle delivery and always passes;
  `abi.decode` reverts when the decoded word is out of range for the target
  type, modelled by the `decodeError` guard.
-/

/-- `2^64`, the bound of `uint64` / `euint64` values. -/
def U64 : Nat := 2 ^ 64

/-- `2^160`, the bound of address values. -/
def U160 : Nat := 2 ^ 160

/-- `2^256`, the bound of `uint256` values. -/
def U256 : Nat := 2 ^ 256

/-- Revert reasons of `SealedBidAuction`. Each constructor corresponds to one
`require` string or checked-arithmetic / `abi.decode` panic in the source. -/
inductive Err where
  /-- "Only admin can call this" -/
  | onlyAdmin
  /-- "Auction not active" (modifier `onlyDuringAuction`) -/
  | auctionNotActive
  /-- "Auction not ended" (modifier `onlyAfterAuction`) -/
  | auctionNotEnded
  /-- "Auction already started" -/
  | alreadyStarted
  /-- "Admin already set" -/
  | adminAlreadySet
  /-- "Deposit required" -/
  | depositRequired
  /-- "Cannot end auction" -/
  | cannotEndAuction
  /-- "Decryption already requested" (in `requestDecryption` and
  `withdrawTotalProceeds`) -/
  | decryptionAlreadyRequested
  /-- "Invalid request ID" -/
  | invalidRequestId
  /-- "Winner not announced yet" -/
  | winnerNotAnnounced
  /-- "No deposit" -/
  | noDeposit
  /-- Panic: checked subtraction underflow (Solidity 0.8) -/
  | arithUnderflow
  /-- Panic: checked addition overflow (Solidity 0.8) -/
  | arithOverflow
  /-- Revert in `abi.decode` / `FHE.fromExternal`: word out of range -/
  | decodeError
  deriving DecidableEq, Repr

/-- Observable effects: the events of the contract plus native-token transfers. -/
inductive Event where
  /-- `AuctionStarted(admin, startTime, endTime)` -/
  | auctionStartedEv (admin startT endT : Nat)
  /-- `AuctionWinnerAnnounced(winner, winningAmount)` -/
  | auctionWinnerAnnounced (winner amount : Nat)
  /-- `TotalProceedsWithdrawn(admin, amount)` -/
  | totalProceedsWithdrawn (admin amount : Nat)
  /-- `payable(to).transfer(amount)` -/
  | transfer (dest amount : Nat)
  deriving DecidableEq, Repr

/-- The contract storage of `SealedBidAuction`, field for field. -/
structure AuctionState where
  admin : Nat
  auctionItem : String
  startTime : Nat
  endTime : Nat
  auctionStarted : Bool
  auctionEnded : Bool
  isWithdraw : Bool
  bids : Nat → Nat
  deposits : Nat → Nat
  bidders : List Nat
  highestBid : Nat
  highestBidder : Nat
  winner : Nat
  winningAmount : Nat
  totalWinningAmount : Nat
  decryptedTotalWinningAmount : Nat
  decryptionRequestIdBidder : Nat
  decryptionRequestIdAmount : Nat
  decryptionRequestIdTotalAmount : Nat

/-- The constructor: every field zero / false / empty. -/
def initState : AuctionState where
  admin := 0
  auctionItem := ""
  startTime := 0
  endTime := 0
  auctionStarted := false
  auctionEnded := false
  isWithdraw := false
  bids := fun _ => 0
  deposits := fun _ => 0
  bidders := []
  highestBid := 0
  highestBidder := 0
  winner := 0
  winningAmount := 0
  totalWinningAmount := 0
  decryptedTotalWinningAmount := 0
  decryptionRequestIdBidder := 0
  decryptionRequestIdAmount := 0
  decryptionRequestIdTotalAmount := 0

/-- Result type of every external function: revert or new state plus
emitted events/transfers, in order. -/
abbrev TxResult := Except Err (AuctionState × List Event)

/-- `startAuction(uint256 _duration)`: anyone; requires `!auctionStarted`
then `admin == address(0)`; sets caller as admin, the bidding window, and
`auctionStarted`; emits `AuctionStarted`. -/
def startAuction (sender duration now : Nat) (s : AuctionState) : TxResult :=
  if s.auctionStarted then .error .alreadyStarted
  else if s.admin ≠ 0 then .error .adminAlreadySet
  else if U256 ≤ now + duration then .error .arithOverflow
  else .ok ({ s with
      admin := sender
      startTime := now
      endTime := now + duration
      auctionStarted := true },
    [.auctionStartedEv sender now (now + duration)])

/-- `placeBid(externalEuint64 encryptedBid, bytes inputProof) payable`:
modifier `onlyDuringAuction`, then `msg.value > 0`; imports the external
ciphertext (`bidVal` is its plaintext, a `uint64`), updates the encrypted
running maximum through `FHE.gt` / `FHE.select` from one selector, stores
the bid, accumulates the deposit and appends the caller to `bidders`. -/
def placeBid (sender value bidVal now : Nat) (s : AuctionState) : TxResult :=
  if ¬(s.auctionStarted = true ∧ s.auctionEnded = false ∧
        s.startTime ≤ now ∧ now ≤ s.endTime) then .error .auctionNotActive
  else if value = 0 then .error .depositRequired
  else if U64 ≤ bidVal then .error .decodeError
  else if U256 ≤ s.deposits sender + value then .error .arithOverflow
  else
    let isHigher : Bool := decide (s.highestBid < bidVal)
    .ok ({ s with
        highestBid := if isHigher then bidVal else s.highestBid
        highestBidder := if isHigher then sender else s.highestBidder
        bids := Function.update s.bids sender bidVal
        deposits := Function.update s.deposits sender (s.deposits sender + value)
        bidders := s.bidders ++ [sender] },
      [])

/-- `endAuction()`: admin only; requires `auctionStarted && !auctionEnded`;
sets `auctionEnded`. -/
def endAuction (sender : Nat) (s : AuctionState) : TxResult :=
  if sender ≠ s.admin then .error .onlyAdmin
  else if ¬(s.auctionStarted = true ∧ s.auctionEnded = false) then
    .error .cannotEndAuction
  else .ok ({ s with auctionEnded := true }, [])

/-- `resetAuction()`: admin only, modifier `onlyAfterAuction` (and a second,
redundant `require(auctionEnded)`); clears the session fields, zeroes the
proceeds accumulators, zeroes `bids` for every recorded bidder and deletes
`bidders`. It does not touch `deposits`, `isWithdraw` or
`decryptionRequestIdTotalAmount`. -/
def resetAuction (sender : Nat) (s : AuctionState) : TxResult :=
  if sender ≠ s.admin then .error .onlyAdmin
  else if s.auctionEnded = false then .error .auctionNotEnded
  else .ok ({ s with
      auctionStarted := false
      auctionEnded := false
      auctionItem := ""
      startTime := 0
      endTime := 0
      highestBid := 0
      highestBidder := 0
      winner := 0
      winningAmount := 0
      decryptionRequestIdBidder := 0
      decryptionRequestIdAmount := 0
      admin := 0
      totalWinningAmount := 0
      decryptedTotalWinningAmount := 0
      bids := fun a => if a ∈ s.bidders then 0 else s.bids a
      bidders := [] },
    [])

/-- `setAuctionItem(string _item)`: admin only. -/
def setAuctionItem (sender : Nat) (item : String) (s : AuctionState) : TxResult :=
  if sender ≠ s.admin then .error .onlyAdmin
  else .ok ({ s with auctionItem := item }, [])

/-- `requestDecryption()`: admin only, after auction; requires
`decryptionRequestIdBidder == 0`; issues the two oracle requests.  The
oracle-assigned request ids are environment inputs `idB`, `idA`. -/
def requestDecryption (sender idB idA : Nat) (s : AuctionState) : TxResult :=
  if sender ≠ s.admin then .error .onlyAdmin
  else if s.auctionEnded = false then .error .auctionNotEnded
  else if s.decryptionRequestIdBidder ≠ 0 then .error .decryptionAlreadyRequested
  else .ok ({ s with
      decryptionRequestIdBidder := idB
      decryptionRequestIdAmount := idA },
    [])

/-- `callbackDecryptBidder(requestId, cleartexts, proof)`: checks the
signatures (modelled as passing), requires the stored bidder request id,
decodes the address (`addr`), sets `winner`, and emits
`AuctionWinnerAnnounced` when `winningAmount` is already non-zero. -/
def callbackDecryptBidder (requestId addr : Nat) (s : AuctionState) : TxResult :=
  if requestId ≠ s.decryptionRequestIdBidder then .error .invalidRequestId
  else if U160 ≤ addr then .error .decodeError
  else .ok ({ s with winner := addr },
    if 0 < s.winningAmount then [.auctionWinnerAnnounced addr s.winningAmount]
    else [])

/-- `callbackDecryptAmount(requestId, cleartexts, proof)`: checks the
signatures, requires the stored amount request id, decodes the `uint64`
(`amount`), sets `winningAmount`, accumulates it homomorphically (wrapping
mod `2^64`) into `totalWinningAmount`, clears `isWithdraw`, and emits
`AuctionWinnerAnnounced` when `winner` is already non-zero. -/
def callbackDecryptAmount (requestId amount : Nat) (s : AuctionState) : TxResult :=
  if requestId ≠ s.decryptionRequestIdAmount then .error .invalidRequestId
  else if U64 ≤ amount then .error .decodeError
  else .ok ({ s with
      winningAmount := amount
      totalWinningAmount := (s.totalWinningAmount + amount) % U64
      isWithdraw := false },
    if s.winner ≠ 0 then [.auctionWinnerAnnounced s.winner amount] else [])

/-- `withdrawTotalProceeds()`: admin only; requires `!isWithdraw`; issues the
oracle request for the encrypted accumulator (oracle-assigned id `idT`).
Note: it does not set `isWithdraw` itself. -/
def withdrawTotalProceeds (sender idT : Nat) (s : AuctionState) : TxResult :=
  if sender ≠ s.admin then .error .onlyAdmin
  else if s.isWithdraw then .error .decryptionAlreadyRequested
  else .ok ({ s with decryptionRequestIdTotalAmount := idT }, [])

/-- `callbackDecryptTotalAmount(requestId, cleartexts, proof)`: checks the
signatures, requires the stored total request id, decodes the `uint64`,
records it, zeroes the encrypted accumulator and the request id, sets
`isWithdraw`, transfers the amount to the admin and emits
`TotalProceedsWithdrawn`. -/
def callbackDecryptTotalAmount (requestId amount : Nat) (s : AuctionState) :
    TxResult :=
  if requestId ≠ s.decryptionRequestIdTotalAmount then .error .invalidRequestId
  else if U64 ≤ amount then .error .decodeError
  else .ok ({ s with
      decryptedTotalWinningAmount := amount
      totalWinningAmount := 0
      decryptionRequestIdTotalAmount := 0
      isWithdraw := true },
    [.transfer s.admin amount, .totalProceedsWithdrawn s.admin amount])

/-- `refund()`: modifier `onlyAfterAuction`; requires the winner announced
(`winner ≠ 0 && winningAmount > 0`) and a non-zero deposit; zeroes
`deposits[caller]`, then transfers the full deposit (loser) or
`deposit - winningAmount` (winner, checked subtraction). -/
def refund (sender : Nat) (s : AuctionState) : TxResult :=
  if s.auctionEnded = false then .error .auctionNotEnded
  else if ¬(s.winner ≠ 0 ∧ 0 < s.winningAmount) then .error .winnerNotAnnounced
  else
    let deposit := s.deposits sender
    if deposit = 0 then .error .noDeposit
    else
      let cleared := { s with deposits := Function.update s.deposits sender 0 }
      if sender = s.winner then
        if deposit < s.winningAmount then .error .arithUnderflow
        else .ok (cleared, [.transfer sender (deposit - s.winningAmount)])
      else .ok (cleared, [.transfer sender deposit])

/-- One external call to the contract with all its environment inputs
(caller, attached value, block timestamp, oracle-assigned ids, decoded
oracle cleartexts). -/
inductive Act where
  | startAuction (sender duration now : Nat)
  | placeBid (sender value bidVal now : Nat)
  | endAuction (sender : Nat)
  | resetAuction (sender : Nat)
  | setAuctionItem (sender : Nat) (item : String)
  | requestDecryption (sender idB idA : Nat)
  | callbackDecryptBidder (requestId addr : Nat)
  | callbackDecryptAmount (requestId amount : Nat)
  | withdrawTotalProceeds (sender idT : Nat)
  | callbackDecryptTotalAmount (requestId amount : Nat)
  | refund (sender : Nat)

/-- Dispatch one action to the corresponding external function. -/
def execAction (a : Act) (s : AuctionState) : TxResult :=
  match a with
  | .startAuction sender duration now => startAuction sender duration now s
  | .placeBid sender value bidVal now => placeBid sender value bidVal now s
  | .endAuction sender => endAuction sender s
  | .resetAuction sender => resetAuction sender s
  | .setAuctionItem sender item => setAuctionItem sender item s
  | .requestDecryption sender idB idA => requestDecryption sender idB idA s
  | .callbackDecryptBidder requestId addr => callbackDecryptBidder requestId addr s
  | .callbackDecryptAmount requestId amount =>
      callbackDecryptAmount requestId amount s
  | .withdrawTotalProceeds sender idT => withdrawTotalProceeds sender idT s
  | .callbackDecryptTotalAmount requestId amount =>
      callbackDecryptTotalAmount requestId amount s
  | .refund sender => refund sender s

/-- Transaction semantics: a revert leaves the state unchanged and emits
nothing. -/
def stepAction (s : AuctionState) (a : Act) : AuctionState × List Event :=
  match execAction a s with
  | .ok r => r
  | .error _ => (s, [])

/-- Run a sequence of external calls from a state, accumulating the events
of the successful ones. -/
def runActions (acts : List Act) (s : AuctionState) :
    AuctionState × List Event :=
  acts.foldl (fun p a => ((stepAction p.1 a).1, p.2 ++ (stepAction p.1 a).2))
    (s, [])

/-- A state is reachable when some sequence of external calls produces it
from the deployed contract. -/
def Reachable (s : AuctionState) : Prop :=
  ∃ acts : List Act, (runActions acts initState).1 = s

/-! ## Shared concrete traces -/

/-- A session that starts, receives one bid, ends and has its winning amount
delivered, so the encrypted proceeds accumulator is non-zero. -/
def c1PreActs : List Act :=
  [.startAuction 1 100 0, .placeBid 2 1 5 0, .endAuction 1,
   .requestDecryption 1 7 8, .callbackDecryptAmount 8 5]

/-- The state reached by `c1PreActs`. -/
def c1State : AuctionState := (runActions c1PreActs initState).1

/-- A freshly started auction with admin `1`. -/
def startedState : AuctionState :=
  (runActions [.startAuction 1 100 0] initState).1

/-- An ended session with one bid and the two reveal requests pending
(ids 7 and 8), both callbacks still undelivered. -/
def sessionState : AuctionState :=
  (runActions [.startAuction 1 100 0, .placeBid 2 1 5 0, .endAuction 1,
    .requestDecryption 1 7 8] initState).1

/-! ## C1: effect of `resetAuction` -/

/-- Postcondition of a successful `resetAuction` from state `s` reaching
state `s2`, as the source writes it: session fields cleared, recorded bids
zeroed, and — contrary to the claim — both proceeds accumulators zeroed. -/
def ResetPost (s s2 : AuctionState) : Prop :=
  s2.auctionStarted = false ∧ s2.auctionEnded = false ∧
  s2.auctionItem = "" ∧ s2.startTime = 0 ∧ s2.endTime = 0 ∧
  s2.highestBid = 0 ∧ s2.highestBidder = 0 ∧
  s2.winner = 0 ∧ s2.winningAmount = 0 ∧ s2.admin = 0 ∧
  s2.decryptionRequestIdBidder = 0 ∧ s2.decryptionRequestIdAmount = 0 ∧
  s2.bidders = [] ∧ (∀ a, a ∈ s.bidders → s2.bids a = 0) ∧
  s2.totalWinningAmount = 0 ∧ s2.decryptedTotalWinningAmount = 0 ∧
  s2.deposits = s.deposits ∧ s2.isWithdraw = s.isWithdraw ∧
  s2.decryptionRequestIdTotalAmount = s.decryptionRequestIdTotalAmount

/-- C1 (counterexample): the claim says `resetAuction` leaves
`totalWinningAmount` unchanged, but on the reachable state `c1State`, where
the encrypted accumulator is 5, a successful `resetAuction` by the admin
zeroes it. -/
theorem C1_counterexample :
    Reachable c1State ∧
    c1State.admin = 1 ∧ c1State.auctionEnded = true ∧
    c1State.totalWinningAmount = 5 ∧
    (resetAuction 1 c1State).toOption.map (fun p => p.1.totalWinningAmount) =
      some 0 :=
  ⟨⟨c1PreActs, rfl⟩, by decide, by decide, by decide, by decide⟩

/-- C1 (amended): `resetAuction` (admin-only, phase Ended) clears the
session-scoped fields and ALSO zeroes both all-time accumulators
`totalWinningAmount` and `decryptedTotalWinningAmount`; it leaves
`deposits`, `isWithdraw` and the pending total-amount request id alone. -/
theorem C1_reset_clears (sender : Nat) (s : AuctionState)
    (hadm : sender = s.admin) (hend : s.auctionEnded = true) :
    ∃ s2, resetAuction sender s = .ok (s2, []) ∧ ResetPost s s2 := by
  subst hadm
  rw [resetAuction, if_neg (by simp), if_neg (by simp [hend])]
  refine ⟨_, rfl, ?_⟩
  refine ⟨rfl, rfl, rfl, rfl, rfl, rfl, rfl, rfl, rfl, rfl, rfl, rfl, rfl,
    ?_, rfl, rfl, rfl, rfl, rfl⟩
  intro a ha
  simp [ha]

/-- C1 (witness): the amended reset theorem applied to the concrete
reachable state `c1State`. -/
theorem C1_reset_clears_witness :
    1 = c1State.admin ∧ c1State.auctionEnded = true ∧
    (∃ s2, resetAuction 1 c1State = .ok (s2, []) ∧ ResetPost c1State s2) :=
  ⟨by decide, by decide, C1_reset_clears 1 c1State (by decide) (by decide)⟩

/-! ## C2: the withdrawal lock -/

/-- What two back-to-back `withdrawTotalProceeds` calls by the admin do when
the lock `isWithdraw` is clear: both succeed (the second overwrites the
pending request id), the lock is set only by `callbackDecryptTotalAmount`,
and only a state with the lock set rejects a withdrawal. -/
def WithdrawLockSpec (s : AuctionState) (idT idT2 : Nat) : Prop :=
  ∃ s1 s2,
    withdrawTotalProceeds s.admin idT s = .ok (s1, []) ∧
    s1.isWithdraw = false ∧ s1.decryptionRequestIdTotalAmount = idT ∧
    withdrawTotalProceeds s.admin idT2 s1 = .ok (s2, []) ∧
    s2.isWithdraw = false ∧ s2.decryptionRequestIdTotalAmount = idT2 ∧
    (∀ t : AuctionState, t.isWithdraw = true →
      withdrawTotalProceeds t.admin idT t = .error .decryptionAlreadyRequested) ∧
    (∀ amount, amount < U64 →
      (callbackDecryptTotalAmount s1.decryptionRequestIdTotalAmount amount
          s1).toOption.map (fun p => p.1.isWithdraw) = some true)

/-- C2 (counterexample): the claim says the second of two
`withdrawTotalProceeds` calls made before the first callback resolves fails
with `WithdrawalPending`; on the reachable state `startedState` (admin 1,
lock clear) both calls succeed, and the second even rewrites the pending
request id, so the ledger is not left unchanged either. -/
theorem C2_counterexample :
    Reachable startedState ∧
    startedState.admin = 1 ∧ startedState.isWithdraw = false ∧
    (withdrawTotalProceeds 1 5 startedState).toOption.map
      (fun p => p.1.isWithdraw) = some false ∧
    ((withdrawTotalProceeds 1 5 startedState).toOption.bind
      (fun p => (withdrawTotalProceeds 1 6 p.1).toOption)).map
      (fun p => p.1.decryptionRequestIdTotalAmount) = some 6 :=
  ⟨⟨[.startAuction 1 100 0], rfl⟩, by decide, by decide, by decide, by decide⟩

/-- C2 (amended): `withdrawTotalProceeds` does not set the lock itself, so
two calls before the first callback both succeed; `isWithdraw` is set only
by `callbackDecryptTotalAmount`, and only then does a further
`withdrawTotalProceeds` fail with `WithdrawalPending`
("Decryption already requested"). -/
theorem C2_withdraw_lock (s : AuctionState) (idT idT2 : Nat)
    (hlock : s.isWithdraw = false) : WithdrawLockSpec s idT idT2 := by
  refine ⟨{ s with decryptionRequestIdTotalAmount := idT },
    { s with decryptionRequestIdTotalAmount := idT2 },
    ?_, hlock, rfl, ?_, hlock, rfl, ?_, ?_⟩
  · rw [withdrawTotalProceeds, if_neg (by simp), if_neg (by simp [hlock])]
  · rw [withdrawTotalProceeds, if_neg (by simp), if_neg (by simp [hlock])]
  · intro t ht
    rw [withdrawTotalProceeds, if_neg (by simp), if_pos ht]
  · intro amount hamt
    rw [callbackDecryptTotalAmount, if_neg (by simp),
      if_neg (Nat.not_le.mpr hamt)]
    rfl

/-- C2 (witness): the amended withdrawal-lock theorem on the concrete
reachable state `startedState` with oracle ids 5 and 6. -/
theorem C2_withdraw_lock_witness :
    startedState.isWithdraw = false ∧ WithdrawLockSpec startedState 5 6 :=
  ⟨by decide, C2_withdraw_lock startedState 5 6 (by decide)⟩

/-! ## C3: reveal pairing -/

/-- A matching-id bidder callback succeeds: it sets `winner` to the decoded
address and emits the winner announcement exactly when `winningAmount` is
already non-zero. -/
lemma callbackDecryptBidder_matched (s : AuctionState) (addr : Nat)
    (h : addr < U160) :
    callbackDecryptBidder s.decryptionRequestIdBidder addr s =
      .ok ({ s with winner := addr },
        if 0 < s.winningAmount then
          [.auctionWinnerAnnounced addr s.winningAmount]
        else []) := by
  rw [callbackDecryptBidder, if_neg (by simp), if_neg (Nat.not_le.mpr h)]

/-- A matching-id amount callback succeeds: it sets `winningAmount`,
accumulates it into the encrypted total, clears `isWithdraw`, and emits the
winner announcement exactly when `winner` is already non-zero. -/
lemma callbackDecryptAmount_matched (s : AuctionState) (amount : Nat)
    (h : amount < U64) :
    callbackDecryptAmount s.decryptionRequestIdAmount amount s =
      .ok ({ s with
          winningAmount := amount
          totalWinningAmount := (s.totalWinningAmount + amount) % U64
          isWithdraw := false },
        if s.winner ≠ 0 then [.auctionWinnerAnnounced s.winner amount]
        else []) := by
  rw [callbackDecryptAmount, if_neg (by simp), if_neg (Nat.not_le.mpr h)]

/-- Delivering the two reveal callbacks of one session (stored ids, non-zero
decoded winner `w` and amount `a`) announces the winner exactly once, from
whichever callback runs second, in a state where both halves are non-zero —
for either delivery order. -/
def RevealPairingSpec (s : AuctionState) (w a : Nat) : Prop :=
  (∃ s1 s2,
    callbackDecryptBidder s.decryptionRequestIdBidder w s = .ok (s1, []) ∧
    callbackDecryptAmount s1.decryptionRequestIdAmount a s1 =
      .ok (s2, [.auctionWinnerAnnounced w a]) ∧
    s2.winner = w ∧ s2.winningAmount = a) ∧
  (∃ s1 s2,
    callbackDecryptAmount s.decryptionRequestIdAmount a s = .ok (s1, []) ∧
    callbackDecryptBidder s1.decryptionRequestIdBidder w s1 =
      .ok (s2, [.auctionWinnerAnnounced w a]) ∧
    s2.winner = w ∧ s2.winningAmount = a)

/-- C3: in a session where the reveal was requested and neither half has
landed yet (`winner = 0`, `winningAmount = 0`), correct deliveries of the
two callbacks with non-zero cleartexts fire the winner announcement exactly
once, from the second callback, with both halves non-zero — in both
orders. -/
theorem C3_reveal_pairing (s : AuctionState) (w a : Nat)
    (hw0 : s.winner = 0) (ha0 : s.winningAmount = 0)
    (hw : w ≠ 0) (ha : a ≠ 0) (hwlt : w < U160) (halt : a < U64) :
    RevealPairingSpec s w a := by
  constructor
  · refine ⟨{ s with winner := w },
      { s with winner := w, winningAmount := a,
               totalWinningAmount := (s.totalWinningAmount + a) % U64,
               isWithdraw := false }, ?_, ?_, rfl, rfl⟩
    · rw [callbackDecryptBidder_matched s w hwlt, ha0]
      simp
    · rw [callbackDecryptAmount_matched { s with winner := w } a halt]
      simp [hw]
  · refine ⟨{ s with
        winningAmount := a
        totalWinningAmount := (s.totalWinningAmount + a) % U64
        isWithdraw := false },
      { s with winner := w, winningAmount := a,
               totalWinningAmount := (s.totalWinningAmount + a) % U64,
               isWithdraw := false }, ?_, ?_, rfl, rfl⟩
    · rw [callbackDecryptAmount_matched s a halt, hw0]
      simp
    · rw [callbackDecryptBidder_matched
        { s with winningAmount := a,
                 totalWinningAmount := (s.totalWinningAmount + a) % U64,
                 isWithdraw := false } w hwlt]
      simp [Nat.pos_of_ne_zero ha]

/-- C3 (witness): the reveal-pairing theorem on the concrete session state
`sessionState` (pending ids 7 and 8) with decoded winner 2 and amount 5. -/
theorem C3_reveal_pairing_witness :
    sessionState.winner = 0 ∧ sessionState.winningAmount = 0 ∧
    RevealPairingSpec sessionState 2 5 :=
  ⟨by decide, by decide,
    C3_reveal_pairing sessionState 2 5 (by decide) (by decide) (by decide)
      (by decide) (by decide) (by decide)⟩

/-! ## C4: running-maximum correctness -/

/-- One `placeBid` call with its environment: caller, attached deposit
value, plaintext of the encrypted bid, block timestamp. -/
structure BidCall where
  sender : Nat
  value : Nat
  bidVal : Nat
  now : Nat

/-- Apply a sequence of `placeBid` calls, requiring every one to succeed. -/
def applyBids : List BidCall → AuctionState → Option AuctionState
  | [], s => some s
  | b :: rest, s =>
    match placeBid b.sender b.value b.bidVal b.now s with
    | .ok r => applyBids rest r.1
    | .error _ => none

/-- The bid values of a call sequence. -/
def bidValues (bs : List BidCall) : List Nat := bs.map (fun b => b.bidVal)

/-- Maximum of a list of naturals (0 for the empty list). -/
def listMax (vs : List Nat) : Nat := vs.foldr max 0

/-- The running `(highestBid, highestBidder)` pair as `placeBid` computes
it: a strictly-greater-than update, both components from one selector. -/
def runMax : List BidCall → Nat × Nat → Nat × Nat
  | [], p => p
  | b :: rest, p =>
      runMax rest (if p.1 < b.bidVal then (b.bidVal, b.sender) else p)

/-- The sender of the first call in the sequence whose bid value is `m`
(0 when there is none). -/
def firstAchiever (m : Nat) : List BidCall → Nat
  | [] => 0
  | b :: rest => if b.bidVal = m then b.sender else firstAchiever m rest

lemma bidValues_cons (b : BidCall) (rest : List BidCall) :
    bidValues (b :: rest) = b.bidVal :: bidValues rest := rfl

lemma listMax_cons (v : Nat) (vs : List Nat) :
    listMax (v :: vs) = max v (listMax vs) := rfl

/-- A successful `placeBid` updates the `(highestBid, highestBidder)` pair
exactly by the strict comparison with the incoming bid. -/
lemma placeBid_highest (sender value bidVal now : Nat) (s : AuctionState)
    (r : AuctionState × List Event)
    (h : placeBid sender value bidVal now s = .ok r) :
    (r.1.highestBid, r.1.highestBidder) =
      if s.highestBid < bidVal then (bidVal, sender)
      else (s.highestBid, s.highestBidder) := by
  rw [placeBid] at h
  split at h
  · simp at h
  split at h
  · simp at h
  split at h
  · simp at h
  split at h
  · simp at h
  simp only [] at h
  cases h
  by_cases hc : s.highestBid < bidVal <;> simp [hc]

/-- Through any successfully applied bid sequence, the stored pair is the
`runMax` fold of the sequence from the initial pair. -/
lemma applyBids_runMax (bs : List BidCall) :
    ∀ s s2 : AuctionState, applyBids bs s = some s2 →
      (s2.highestBid, s2.highestBidder) =
        runMax bs (s.highestBid, s.highestBidder) := by
  induction bs with
  | nil =>
    intro s s2 h
    cases h
    rfl
  | cons b rest ih =>
    intro s s2 h
    rw [applyBids] at h
    cases hpb : placeBid b.sender b.value b.bidVal b.now s with
    | error e => rw [hpb] at h; cases h
    | ok r =>
      rw [hpb] at h
      have h1 := placeBid_highest b.sender b.value b.bidVal b.now s r hpb
      have h2 := ih r.1 s2 h
      rw [h2, runMax, ← h1]

/-- When every bid value is at most the incumbent, the fold keeps the
incumbent pair. -/
lemma runMax_le (bs : List BidCall) :
    ∀ hb hbr : Nat, listMax (bidValues bs) ≤ hb →
      runMax bs (hb, hbr) = (hb, hbr) := by
  induction bs with
  | nil => intro hb hbr _; rfl
  | cons b rest ih =>
    intro hb hbr h
    rw [bidValues_cons, listMax_cons] at h
    rw [runMax,
      if_neg (not_lt.mpr (le_trans (le_max_left _ _) h))]
    exact ih hb hbr (le_trans (le_max_right _ _) h)

/-- The first component of the fold is the maximum of the incumbent and all
bid values. -/
lemma runMax_fst (bs : List BidCall) :
    ∀ hb hbr : Nat,
      (runMax bs (hb, hbr)).1 = max hb (listMax (bidValues bs)) := by
  induction bs with
  | nil => intro hb hbr; simp [runMax, bidValues, listMax]
  | cons b rest ih =>
    intro hb hbr
    rw [runMax, bidValues_cons, listMax_cons]
    by_cases hc : hb < b.bidVal
    · rw [if_pos hc, ih]
      exact (max_eq_right (le_trans (le_of_lt hc) (le_max_left _ _))).symm
    · rw [if_neg hc, ih, ← max_assoc, max_eq_left (not_lt.mp hc)]

/-- When some bid strictly exceeds the incumbent, the second component of
the fold is the sender of the first bid achieving the overall maximum. -/
lemma runMax_snd (bs : List BidCall) :
    ∀ hb hbr : Nat, hb < listMax (bidValues bs) →
      (runMax bs (hb, hbr)).2 = firstAchiever (listMax (bidValues bs)) bs := by
  induction bs with
  | nil =>
    intro hb hbr h
    exact absurd h (by simp [bidValues, listMax])
  | cons b rest ih =>
    intro hb hbr h
    rw [bidValues_cons, listMax_cons] at h ⊢
    rw [runMax, firstAchiever]
    by_cases hveq : b.bidVal = max b.bidVal (listMax (bidValues rest))
    · rw [if_pos hveq,
        if_pos (lt_of_lt_of_le h (le_of_eq hveq.symm)),
        runMax_le rest b.bidVal b.sender
          (le_trans (le_max_right _ _) (le_of_eq hveq.symm))]
    · rw [if_neg hveq]
      have hM : max b.bidVal (listMax (bidValues rest)) =
          listMax (bidValues rest) := by
        rcases max_choice b.bidVal (listMax (bidValues rest)) with hm | hm
        · exact absurd hm.symm hveq
        · exact hm
      rw [hM] at h ⊢
      by_cases hstep : hb < b.bidVal
      · rw [if_pos hstep]
        apply ih
        have hv_le : b.bidVal ≤ listMax (bidValues rest) :=
          hM ▸ le_max_left b.bidVal (listMax (bidValues rest))
        exact lt_of_le_of_ne hv_le (fun hcon => hveq (hcon.trans hM.symm))
      · rw [if_neg hstep]
        exact ih hb hbr h

/-- C4 (counterexample): the claim, as stated, fails when every bid in the
sequence is zero: on the reachable started auction, one successful
`placeBid` by bidder 2 with bid value 0 leaves `highestBidder = 0`, not
bidder 2, although 2 is the first bidder to have submitted the maximum
value 0. -/
theorem C4_counterexample :
    Reachable startedState ∧ startedState.highestBid = 0 ∧
    listMax (bidValues [⟨2, 1, 0, 0⟩]) = 0 ∧
    firstAchiever 0 [⟨2, 1, 0, 0⟩] = 2 ∧
    (applyBids [⟨2, 1, 0, 0⟩] startedState).map
      (fun t => (t.highestBid, t.highestBidder)) = some (0, 0) :=
  ⟨⟨[.startAuction 1 100 0], rfl⟩, by decide, by decide, by decide, by decide⟩

/-- C4 (amended): for every sequence of successful `placeBid` calls in one
session starting from `highestBid = 0`, PROVIDED the maximum bid value is
positive, the final `highestBid` is `max(v1..vn)` and the final
`highestBidder` is the first bidder in the sequence to have submitted that
maximum (a later equal bid does not displace the incumbent); both come from
the same `runMax` fold, i.e. from the same selector. When every bid is
zero, `highestBidder` instead stays the initial zero address. -/
theorem C4_running_max (bs : List BidCall) (s s2 : AuctionState)
    (h0 : s.highestBid = 0) (happly : applyBids bs s = some s2)
    (hpos : 0 < listMax (bidValues bs)) :
    s2.highestBid = listMax (bidValues bs) ∧
    s2.highestBidder = firstAchiever (listMax (bidValues bs)) bs := by
  have h := applyBids_runMax bs s s2 happly
  rw [h0] at h
  constructor
  · have h1 := congrArg Prod.fst h
    rw [runMax_fst] at h1
    simpa using h1
  · have h2 := congrArg Prod.snd h
    rw [runMax_snd bs 0 s.highestBidder hpos] at h2
    exact h2

/-- Four successful bids: 100 by 2, 300 by 3, 200 by 4, and a later equal
300 by 5 (which must not displace bidder 3). -/
def c4Bids : List BidCall := [⟨2, 4, 100, 0⟩, ⟨3, 4, 300, 0⟩, ⟨4, 4, 200, 0⟩,
  ⟨5, 4, 300, 0⟩]

/-- The state after applying `c4Bids` to the started auction. -/
def c4Final : AuctionState := (applyBids c4Bids startedState).getD initState

/-- C4 (witness): the amended running-maximum theorem on the concrete bid
sequence `c4Bids`: the final highest bid is 300 and the final highest
bidder is 3, the first to have bid 300. -/
theorem C4_running_max_witness :
    startedState.highestBid = 0 ∧
    applyBids c4Bids startedState = some c4Final ∧
    0 < listMax (bidValues c4Bids) ∧
    (c4Final.highestBid = listMax (bidValues c4Bids) ∧
     c4Final.highestBidder = firstAchiever (listMax (bidValues c4Bids)) c4Bids) :=
  ⟨by decide, rfl, by decide,
    C4_running_max c4Bids startedState c4Final (by decide) rfl (by decide)⟩

/-! ## C5: refund exactness -/

/-- A non-winner with a non-zero deposit is refunded the full deposit, with
`deposits[caller]` zeroed in the successor state. -/
lemma refund_loser (s : AuctionState) (sender : Nat)
    (hend : s.auctionEnded = true) (hw : s.winner ≠ 0)
    (ha : 0 < s.winningAmount) (hd : s.deposits sender ≠ 0)
    (hne : sender ≠ s.winner) :
    refund sender s =
      .ok ({ s with deposits := Function.update s.deposits sender 0 },
        [.transfer sender (s.deposits sender)]) := by
  rw [refund, if_neg (by simp [hend]), if_neg (by simp [hw, ha])]
  simp only []
  rw [if_neg hd, if_neg hne]

/-- The winner with deposit at least the revealed amount is refunded the
difference, with `deposits[caller]` zeroed in the successor state. -/
lemma refund_winner (s : AuctionState) (sender : Nat)
    (hend : s.auctionEnded = true) (hw : s.winner ≠ 0)
    (ha : 0 < s.winningAmount) (hd : s.deposits sender ≠ 0)
    (heq : sender = s.winner) (hge : s.winningAmount ≤ s.deposits sender) :
    refund sender s =
      .ok ({ s with deposits := Function.update s.deposits sender 0 },
        [.transfer sender (s.deposits sender - s.winningAmount)]) := by
  rw [refund, if_neg (by simp [hend]), if_neg (by simp [hw, ha])]
  simp only []
  rw [if_neg hd, if_pos heq, if_neg (not_lt.mpr hge)]

/-- With winner announced but a zero deposit, `refund` fails with
"No deposit". -/
lemma refund_empty (s : AuctionState) (sender : Nat)
    (hend : s.auctionEnded = true) (hw : s.winner ≠ 0)
    (ha : 0 < s.winningAmount) (hd : s.deposits sender = 0) :
    refund sender s = .error .noDeposit := by
  rw [refund, if_neg (by simp [hend]), if_neg (by simp [hw, ha])]
  simp only []
  rw [if_pos hd]

/-- Refund behaviour in phase Ended, as claimed: `WinnerNotAnnounced`
before both halves are revealed; a loser is paid exactly their deposit, the
winner exactly deposit minus amount, both with the deposit zeroed in the
state that accompanies the transfer; a repeated call fails `NoDeposit`. -/
def RefundSpec (s : AuctionState) (sender : Nat) : Prop :=
  ((s.winner = 0 ∨ s.winningAmount = 0) →
    refund sender s = .error .winnerNotAnnounced) ∧
  (s.winner ≠ 0 → 0 < s.winningAmount → 0 < s.deposits sender →
    ((sender ≠ s.winner →
      ∃ s2, refund sender s =
          .ok (s2, [.transfer sender (s.deposits sender)]) ∧
        s2.deposits sender = 0 ∧ refund sender s2 = .error .noDeposit) ∧
     (sender = s.winner → s.winningAmount ≤ s.deposits sender →
      ∃ s2, refund sender s =
          .ok (s2, [.transfer sender (s.deposits sender - s.winningAmount)]) ∧
        s2.deposits sender = 0 ∧ refund sender s2 = .error .noDeposit)))

/-- C5: in phase Ended, refund pays a non-winner exactly their deposit and
the winner exactly deposit − winningAmount (when the amount fits), zeroing
the deposit in the same step so a second call fails `NoDeposit`; with
either reveal half still zero it fails `WinnerNotAnnounced`. -/
theorem C5_refund_exactness (s : AuctionState) (sender : Nat)
    (hend : s.auctionEnded = true) : RefundSpec s sender := by
  refine ⟨?_, ?_⟩
  · intro hz
    rw [refund, if_neg (by simp [hend]),
      if_pos (by rcases hz with h | h <;> simp [h])]
  · intro hw ha hd
    have hd2 : s.deposits sender ≠ 0 := Nat.pos_iff_ne_zero.mp hd
    constructor
    · intro hne
      refine ⟨_, refund_loser s sender hend hw ha hd2 hne,
        Function.update_same sender 0 s.deposits,
        refund_empty _ sender hend hw ha
          (Function.update_same sender 0 s.deposits)⟩
    · intro heq hge
      refine ⟨_, refund_winner s sender hend hw ha hd2 heq hge,
        Function.update_same sender 0 s.deposits,
        refund_empty _ sender hend hw ha
          (Function.update_same sender 0 s.deposits)⟩

/-- A completed session: admin 1, bids by 2 (deposit 6, bid 5) and 3
(deposit 4, bid 2), ended, revealed winner 2 with amount 5. -/
def announcedState : AuctionState :=
  (runActions [.startAuction 1 100 0, .placeBid 2 6 5 0, .placeBid 3 4 2 0,
    .endAuction 1, .requestDecryption 1 7 8, .callbackDecryptBidder 7 2,
    .callbackDecryptAmount 8 5] initState).1

/-- C5 (witness): the refund theorem on the concrete completed session
`announcedState`, for caller 3 (the losing bidder). -/
theorem C5_refund_exactness_witness :
    announcedState.auctionEnded = true ∧ RefundSpec announcedState 3 :=
  ⟨by decide, C5_refund_exactness announcedState 3 (by decide)⟩

/-! ## C6: stale callbacks are rejected without effect -/

/-- Callbacks bearing a wrong request id fail with `InvalidRequestId` and
leave the state unchanged (no events), while callbacks bearing the stored
ids still succeed. -/
def CallbackRejectSpec (s : AuctionState) (reqB reqA addr amount : Nat) :
    Prop :=
  callbackDecryptBidder reqB addr s = .error .invalidRequestId ∧
  callbackDecryptAmount reqA amount s = .error .invalidRequestId ∧
  stepAction s (.callbackDecryptBidder reqB addr) = (s, []) ∧
  stepAction s (.callbackDecryptAmount reqA amount) = (s, []) ∧
  (callbackDecryptBidder s.decryptionRequestIdBidder addr s).isOk = true ∧
  (callbackDecryptAmount s.decryptionRequestIdAmount amount s).isOk = true

/-- C6: for every ledger state, a decryption callback whose request id
differs from the stored pending id fails with `InvalidRequestId` and
changes nothing, and a later callback bearing the stored id still
succeeds. -/
theorem C6_stale_callback (s : AuctionState) (reqB reqA addr amount : Nat)
    (hB : reqB ≠ s.decryptionRequestIdBidder)
    (hA : reqA ≠ s.decryptionRequestIdAmount)
    (haddr : addr < U160) (hamt : amount < U64) :
    CallbackRejectSpec s reqB reqA addr amount := by
  have eB : callbackDecryptBidder reqB addr s = .error .invalidRequestId := by
    rw [callbackDecryptBidder, if_pos hB]
  have eA : callbackDecryptAmount reqA amount s = .error .invalidRequestId := by
    rw [callbackDecryptAmount, if_pos hA]
  refine ⟨eB, eA, ?_, ?_, ?_, ?_⟩
  · simp only [stepAction, execAction, eB]
  · simp only [stepAction, execAction, eA]
  · rw [callbackDecryptBidder_matched s addr haddr]; rfl
  · rw [callbackDecryptAmount_matched s amount hamt]; rfl

/-- C6 (witness): the stale-callback theorem on the concrete pending
session `sessionState` (stored ids 7 and 8) with wrong ids 99 and 98. -/
theorem C6_stale_callback_witness :
    (99 ≠ sessionState.decryptionRequestIdBidder ∧
     98 ≠ sessionState.decryptionRequestIdAmount) ∧
    CallbackRejectSpec sessionState 99 98 2 5 :=
  ⟨⟨by decide, by decide⟩,
    C6_stale_callback sessionState 99 98 2 5 (by decide) (by decide)
      (by decide) (by decide)⟩

/-! ## C7: startAuction and admin exclusivity -/

/-- Once the auction is started, any further `startAuction` reverts with
"Auction already started". -/
lemma startAuction_started (sender duration now : Nat) (s : AuctionState)
    (h : s.auctionStarted = true) :
    startAuction sender duration now s = .error .alreadyStarted := by
  rw [startAuction, if_pos h]

/-- A run of `startAuction` calls over a started auction is stuck: no state
change and no events, whatever the callers. -/
lemma foldl_startAuction_stuck (cs : List (Nat × Nat × Nat)) :
    ∀ (t : AuctionState) (evs : List Event), t.auctionStarted = true →
      List.foldl
        (fun p a => ((stepAction p.1 a).1, p.2 ++ (stepAction p.1 a).2))
        (t, evs) (cs.map fun c => Act.startAuction c.1 c.2.1 c.2.2) =
        (t, evs) := by
  induction cs with
  | nil => intro t evs _; rfl
  | cons c cs ih =>
    intro t evs h
    rw [List.map_cons, List.foldl_cons]
    have hs : stepAction t (Act.startAuction c.1 c.2.1 c.2.2) = (t, []) := by
      simp only [stepAction, execAction,
        startAuction_started c.1 c.2.1 c.2.2 t h]
    rw [hs]
    simpa using ih t evs h

/-- `startAuction` behaviour: failure from a started auction; from Idle with
no admin it installs the caller as admin, sets the window, starts the
auction and emits the event — after which every later `startAuction` in
`rest` fails with `AlreadyStarted` and the whole run of them is a no-op. -/
def StartExclusivitySpec (sender duration now : Nat) (s : AuctionState)
    (rest : List (Nat × Nat × Nat)) : Prop :=
  (s.auctionStarted = true →
    startAuction sender duration now s = .error .alreadyStarted) ∧
  (s.auctionStarted = false → s.admin = 0 → now + duration < U256 →
    ∃ s1, startAuction sender duration now s =
        .ok (s1, [.auctionStartedEv sender now (now + duration)]) ∧
      s1.admin = sender ∧ s1.auctionStarted = true ∧
      s1.startTime = now ∧ s1.endTime = now + duration ∧
      (∀ c ∈ rest,
        startAuction c.1 c.2.1 c.2.2 s1 = .error .alreadyStarted) ∧
      runActions (rest.map fun c => Act.startAuction c.1 c.2.1 c.2.2) s1 =
        (s1, []))

/-- C7: `startAuction` succeeds exactly from phase Idle with no admin set,
making the caller admin with window `[now, now+duration]`; with the auction
started it fails with `AlreadyStarted`; hence of any serialized sequence of
start calls from Idle exactly the first succeeds and all later ones fail
with `AlreadyStarted`, changing nothing. -/
theorem C7_start_exclusivity (sender duration now : Nat) (s : AuctionState)
    (rest : List (Nat × Nat × Nat)) :
    StartExclusivitySpec sender duration now s rest := by
  constructor
  · exact startAuction_started sender duration now s
  · intro hns hadm hov
    refine ⟨{ s with
        admin := sender
        startTime := now
        endTime := now + duration
        auctionStarted := true }, ?_, rfl, rfl, rfl, rfl, ?_, ?_⟩
    · rw [startAuction, if_neg (by simp [hns]), if_neg (by simp [hadm]),
        if_neg (not_le.mpr hov)]
    · intro c _
      exact startAuction_started c.1 c.2.1 c.2.2 _ rfl
    · rw [runActions]
      exact foldl_startAuction_stuck rest _ [] rfl

/-- C7 (witness): the exclusivity theorem from the deployed state with
first caller 1 and later callers 2 and 3. -/
theorem C7_start_exclusivity_witness :
    initState.auctionStarted = false ∧ initState.admin = 0 ∧
    0 + 100 < U256 ∧
    StartExclusivitySpec 1 100 0 initState [(2, 50, 5), (3, 60, 6)] :=
  ⟨by decide, by decide, by norm_num [U256],
    C7_start_exclusivity 1 100 0 initState [(2, 50, 5), (3, 60, 6)]⟩

/-! ## C8: placeBid guards and effects -/

/-- `placeBid` behaviour: `AuctionNotActive` outside the window,
`DepositRequired` on zero value; on success the bid mapping is overwritten
at the caller, the deposit accumulates, other entries are untouched and the
caller is appended to `bidders` without duplicate suppression. -/
def PlaceBidSpec (s : AuctionState) (sender value bidVal now : Nat) : Prop :=
  (¬(s.auctionStarted = true ∧ s.auctionEnded = false ∧
      s.startTime ≤ now ∧ now ≤ s.endTime) →
    placeBid sender value bidVal now s = .error .auctionNotActive) ∧
  (s.auctionStarted = true → s.auctionEnded = false →
   s.startTime ≤ now → now ≤ s.endTime → value = 0 →
    placeBid sender value bidVal now s = .error .depositRequired) ∧
  (s.auctionStarted = true → s.auctionEnded = false →
   s.startTime ≤ now → now ≤ s.endTime → 0 < value → bidVal < U64 →
   s.deposits sender + value < U256 →
    ∃ s2, placeBid sender value bidVal now s = .ok (s2, []) ∧
      s2.bids sender = bidVal ∧
      s2.deposits sender = s.deposits sender + value ∧
      s2.bidders = s.bidders ++ [sender] ∧
      (∀ other, other ≠ sender →
        s2.bids other = s.bids other ∧ s2.deposits other = s.deposits other))

/-- C8: `placeBid` fails with `AuctionNotActive` unless started, not ended
and `startTime ≤ now ≤ endTime`, fails with `DepositRequired` on zero
attached value, and on success overwrites `bids[caller]`, accumulates
`deposits[caller]` and appends the caller to `bidders`. -/
theorem C8_place_bid (s : AuctionState) (sender value bidVal now : Nat) :
    PlaceBidSpec s sender value bidVal now := by
  refine ⟨?_, ?_, ?_⟩
  · intro hna
    rw [placeBid, if_pos hna]
  · intro h1 h2 h3 h4 hv
    rw [placeBid, if_neg (not_not_intro ⟨h1, h2, h3, h4⟩), if_pos hv]
  · intro h1 h2 h3 h4 hv hbv hdep
    refine ⟨{ s with
        highestBid := if decide (s.highestBid < bidVal) then bidVal
          else s.highestBid
        highestBidder := if decide (s.highestBid < bidVal) then sender
          else s.highestBidder
        bids := Function.update s.bids sender bidVal
        deposits := Function.update s.deposits sender
          (s.deposits sender + value)
        bidders := s.bidders ++ [sender] }, ?_, ?_, ?_, rfl, ?_⟩
    · rw [placeBid, if_neg (not_not_intro ⟨h1, h2, h3, h4⟩),
        if_neg (Nat.pos_iff_ne_zero.mp hv), if_neg (not_le.mpr hbv),
        if_neg (not_le.mpr hdep)]
    · exact Function.update_same sender bidVal s.bids
    · exact Function.update_same sender _ s.deposits
    · intro other hne
      exact ⟨Function.update_noteq hne bidVal s.bids,
        Function.update_noteq hne _ s.deposits⟩

/-- C8 (witness): the placeBid theorem on the started auction for bidder 2
with value 3 and bid 7 at time 10. -/
theorem C8_place_bid_witness : PlaceBidSpec startedState 2 3 7 10 :=
  C8_place_bid startedState 2 3 7 10

/-! ## C9: a pending reveal request persists until reset -/

/-- Once the bidder-reveal request id is armed: no operation other than
`resetAuction` changes it, every further `requestDecryption` reverts, and a
`resetAuction` by the admin (phase Ended) zeroes it again. -/
def PendingSpec (s : AuctionState) : Prop :=
  (∀ a : Act, (∀ sender, a ≠ .resetAuction sender) →
    (stepAction s a).1.decryptionRequestIdBidder =
      s.decryptionRequestIdBidder) ∧
  (∀ sender idB idA, (requestDecryption sender idB idA s).isOk = false) ∧
  (s.auctionEnded = true →
    (resetAuction s.admin s).toOption.map
      (fun p => p.1.decryptionRequestIdBidder) = some 0)

/-- C9: once `requestDecryption` has armed `decryptionRequestIdBidder`
(non-zero), it is preserved by every operation except `resetAuction` — in
particular by both decryption callbacks — so any further
`requestDecryption` in the session reverts; only `resetAuction` clears it
for the next session. -/
theorem C9_pending_persists (s : AuctionState)
    (hpend : s.decryptionRequestIdBidder ≠ 0) : PendingSpec s := by
  refine ⟨?_, ?_, ?_⟩
  · intro a ha
    cases a with
    | startAuction sender duration now =>
      simp only [stepAction, execAction, startAuction]
      split_ifs <;> rfl
    | placeBid sender value bidVal now =>
      simp only [stepAction, execAction, placeBid]
      split_ifs <;> rfl
    | endAuction sender =>
      simp only [stepAction, execAction, endAuction]
      split_ifs <;> rfl
    | resetAuction sender => exact absurd rfl (ha sender)
    | setAuctionItem sender item =>
      simp only [stepAction, execAction, setAuctionItem]
      split_ifs <;> rfl
    | requestDecryption sender idB idA =>
      simp only [stepAction, execAction, requestDecryption]
      split_ifs <;> rfl
    | callbackDecryptBidder requestId addr =>
      simp only [stepAction, execAction, callbackDecryptBidder]
      split_ifs <;> rfl
    | callbackDecryptAmount requestId amount =>
      simp only [stepAction, execAction, callbackDecryptAmount]
      split_ifs <;> rfl
    | withdrawTotalProceeds sender idT =>
      simp only [stepAction, execAction, withdrawTotalProceeds]
      split_ifs <;> rfl
    | callbackDecryptTotalAmount requestId amount =>
      simp only [stepAction, execAction, callbackDecryptTotalAmount]
      split_ifs <;> rfl
    | refund sender =>
      simp only [stepAction, execAction, refund]
      split_ifs <;> rfl
  · intro sender idB idA
    rw [requestDecryption]
    split_ifs <;> rfl
  · intro hend
    rw [resetAuction, if_neg (by simp), if_neg (by simp [hend])]
    rfl

/-- C9 (witness): the persistence theorem on the concrete session
`sessionState`, whose pending bidder request id is 7. -/
theorem C9_pending_persists_witness :
    sessionState.decryptionRequestIdBidder ≠ 0 ∧ PendingSpec sessionState :=
  ⟨by decide, C9_pending_persists sessionState (by decide)⟩

/-! ## C10: winner refund underflow -/

/-- With the caller the winner and `0 < deposit < winningAmount`, `refund`
reverts on the checked subtraction, the transaction is a no-op, and the
deposit of the caller is unchanged afterwards. -/
def UnderflowSpec (s : AuctionState) (sender : Nat) : Prop :=
  refund sender s = .error .arithUnderflow ∧
  stepAction s (.refund sender) = (s, []) ∧
  (stepAction s (.refund sender)).1.deposits sender = s.deposits sender

/-- C10: when the winner calls `refund` with a positive deposit smaller
than the revealed winning amount, the checked subtraction
`deposit - winningAmount` underflows and the call reverts; the revert rolls
back the deposit write, so the deposit is unchanged and still refundable
later. -/
theorem C10_refund_underflow (s : AuctionState) (sender : Nat)
    (hend : s.auctionEnded = true) (hw : s.winner ≠ 0)
    (ha : 0 < s.winningAmount) (heq : sender = s.winner)
    (hd : 0 < s.deposits sender)
    (hlt : s.deposits sender < s.winningAmount) :
    UnderflowSpec s sender := by
  have he : refund sender s = .error .arithUnderflow := by
    rw [refund, if_neg (by simp [hend]), if_neg (by simp [hw, ha])]
    simp only []
    rw [if_neg (Nat.pos_iff_ne_zero.mp hd), if_pos heq, if_pos hlt]
  refine ⟨he, ?_, ?_⟩
  · simp only [stepAction, execAction, he]
  · simp only [stepAction, execAction, he]

/-- A completed session where the revealed winner 2 deposited only 3 but
the revealed winning amount is 5. -/
def underflowState : AuctionState :=
  (runActions [.startAuction 1 100 0, .placeBid 2 3 5 0, .endAuction 1,
    .requestDecryption 1 7 8, .callbackDecryptBidder 7 2,
    .callbackDecryptAmount 8 5] initState).1

/-- C10 (witness): the underflow theorem on the concrete state
`underflowState` for the winner, caller 2. -/
theorem C10_refund_underflow_witness :
    (underflowState.deposits 2 = 3 ∧ underflowState.winningAmount = 5) ∧
    UnderflowSpec underflowState 2 :=
  ⟨⟨by decide, by decide⟩,
    C10_refund_underflow underflowState 2 (by decide) (by decide) (by decide)
      (by decide) (by decide) (by decide)⟩
